import Mathlib

/-!
Verification of the `databind` discovery / TTL-cache / template engine of the
infrastructure-agent repository, together with the memory sampler.

The file shallowly embeds the Go sources:
 * `pkg/databind/pkg/data/discovery.go` (`AddValues`, `EntityRewrites.Apply`,
   `InterfaceMapWithTtl.TTL`);
 * the memory sampler (`MemoryMonitor.Sample`);
 * the binder engine itself (`cachedEntry`, `gatherer`, `discoverer`,
   `Sources.Fetch`, `Replace`) is absent from the given sources (only its
   tests are present), so it is modelled from the specification, as marked
   on each definition.

Go `time.Duration` values are embedded as `Int` nanoseconds, timestamps as
`Int` nanoseconds since an arbitrary epoch, and Go strings as Lean `String`
(claims only exercise ASCII data, where Go runes and Lean chars agree).
The Go parameter named like Lean's prefix-notation keyword is renamed `pre`.
-/

namespace Databind

/-- The dynamically-typed Go value (`interface{}`) as the tagged variant the
`AddValues` type switch distinguishes: `string`, `map[string]string`,
`map[string]interface{}`, `data.InterfaceMap`, `data.InterfaceMapWithTtl`,
`[]string`, `[]interface{}`, and (for the `default` branch) integers and
booleans. Go maps are embedded as association lists (iteration order made
explicit). -/
inductive Value where
  | str : String → Value
  | strMap : List (String × String) → Value
  | goMap : List (String × Value) → Value
  | imap : List (String × Value) → Value
  | imapTtl : List (String × Value) → Value
  | strList : List String → Value
  | list : List Value → Value
  | int : Int → Value
  | bool : Bool → Value

/-- `data.Map` (`map[string]string`), as an insertion-ordered association
list. -/
abbrev Map := List (String × String)

/-- Go map assignment `dst[k] = v`: overwrite the entry when the key exists,
else append. -/
def mapInsert (dst : Map) (k v : String) : Map :=
  if dst.any (fun p => p.1 = k) then
    dst.map (fun p => if p.1 = k then (k, v) else p)
  else
    dst ++ [(k, v)]

/-- Go map lookup `m[k]` (comma-ok form). -/
def mapLookup (m : Map) (k : String) : Option String :=
  (m.find? (fun p => p.1 = k)).map (fun p => p.2)

/-- The stringification `fmt.Sprintf("%+v", value)` of the `default` branch
of `AddValues`, for the scalar kinds the embedding carries. -/
def sprintfDefault : Value → String
  | .int i => toString i
  | .bool b => if b then "true" else "false"
  | _ => ""

/-- The `map[string]string` range loop of `AddValues`:
`dst[pfx+k] = v`. -/
def addStrPairs (dst : Map) (pfx : String) : List (String × String) → Map
  | [] => dst
  | (k, v) :: rest => addStrPairs (mapInsert dst (pfx ++ k) v) pfx rest

/-- The `[]string` range loop of `AddValues`:
`dst[pre+"["+i+"]"] = v`. -/
def addStrIndexed (dst : Map) (pre : String) (i : Nat) : List String → Map
  | [] => dst
  | v :: rest =>
      addStrIndexed (mapInsert dst (pre ++ "[" ++ toString i ++ "]") v)
        pre (i + 1) rest

mutual

/-- `AddValues` of `pkg/databind/pkg/data/discovery.go`: adds a structured
value to a flat map under JS-like paths (`pre.key`, `pre[i]`); `pre` is the
Go `prefix` parameter. -/
def AddValues (dst : Map) (pre : String) (val : Value) : Map :=
  match val with
  | .str value => mapInsert dst pre value
  | .strMap value => addStrPairs dst (if pre ≠ "" then pre ++ "." else "") value
  | .goMap value => addValuePairs dst (if pre ≠ "" then pre ++ "." else "") value
  | .imap value => addValuePairs dst (if pre ≠ "" then pre ++ "." else "") value
  | .imapTtl value => addValuePairs dst (if pre ≠ "" then pre ++ "." else "") value
  | .strList value => addStrIndexed dst pre 0 value
  | .list value => addValueIndexed dst pre 0 value
  | .int i => mapInsert dst pre (sprintfDefault (.int i))
  | .bool b => mapInsert dst pre (sprintfDefault (.bool b))

/-- The `map[string]interface{}` / `InterfaceMap` / `InterfaceMapWithTtl`
range loops of `AddValues`: recurse with `pfx + k`. -/
def addValuePairs (dst : Map) (pfx : String) : List (String × Value) → Map
  | [] => dst
  | (k, v) :: rest => addValuePairs (AddValues dst (pfx ++ k) v) pfx rest

/-- The `[]interface{}` range loop of `AddValues`: recurse with
`pre + "[" + i + "]"`. -/
def addValueIndexed (dst : Map) (pre : String) (i : Nat) : List Value → Map
  | [] => dst
  | v :: rest =>
      addValueIndexed (AddValues dst (pre ++ "[" ++ toString i ++ "]") v)
        pre (i + 1) rest

end

/-! ### Go `strings.Replace(s, old, new, -1)` -/

/-- The empty-`old` case of `strings.Replace` with `n = -1`: `old` matches at
the beginning of the string and after each rune, so `new` is inserted before
every rune and once at the end. -/
def replEmpty (new : List Char) : List Char → List Char
  | [] => new
  | c :: rest => new ++ c :: replEmpty new rest

/-- The non-empty-`old` case of `strings.Replace` with `n = -1`: replace the
leftmost non-overlapping instances of `o :: os` by `new` (byte-level matching
of whole UTF-8 runes coincides with rune-level matching). Every step consumes
at least one character, so the structural `fuel` never runs out when started
at the input's length; it only makes the recursion kernel-reducible. -/
def replaceLoop (o : Char) (os new : List Char) : Nat → List Char → List Char
  | _, [] => []
  | 0, s => s
  | fuel + 1, c :: rest =>
    if (o :: os).isPrefixOf (c :: rest) then
      new ++ replaceLoop o os new fuel (rest.drop os.length)
    else
      c :: replaceLoop o os new fuel rest

/-- Go `strings.Replace(s, old, new, -1)`: `old = new` returns `s`
unchanged (the `avoid allocation` early return); an empty `old` inserts
`new` around every rune; otherwise all leftmost non-overlapping instances
are replaced. -/
def goStringsReplace (s old new : String) : String :=
  if old = new then s
  else
    match old.data with
    | [] => String.mk (replEmpty new.data s.data)
    | o :: os => String.mk (replaceLoop o os new.data s.data.length s.data)

/-! ### `EntityRewrite` and `EntityRewrites.Apply` (discovery.go) -/

/-- `EntityRewriteActionReplace = "replace"`. -/
def EntityRewriteActionReplace : String := "replace"

/-- `EntityRewrite` configuration record; the Go field `Match` is rendered
`needle` (capitalization aside, the Go name is a Lean keyword). -/
structure EntityRewrite where
  action : String
  needle : String
  replaceField : String

/-- `EntityRewrites.Apply` of discovery.go: fold over the rules in list
order, applying `strings.Replace(result, er.Match, er.ReplaceField, -1)`
whenever `er.Action == EntityRewriteActionReplace`. -/
def EntityRewrites.Apply (e : List EntityRewrite) (entityName : String) : String :=
  e.foldl
    (fun result er =>
      if er.action = EntityRewriteActionReplace then
        goStringsReplace result er.needle er.replaceField
      else result)
    entityName

/-! ### Go `time.ParseDuration`

A model of the standard-library parser, returning the duration in
nanoseconds. Overflow checks are omitted (durations in scope are far below
2^63 ns) and the fractional part is scaled with integer division where Go
uses float64; both differences are invisible on the inputs exercised here. -/

/-- `leadingInt`: consume a leading run of decimal digits. -/
def leadingInt (acc : Nat) : List Char → Nat × List Char
  | [] => (acc, [])
  | c :: rest =>
    if c.isDigit then leadingInt (acc * 10 + (c.toNat - 48)) rest
    else (acc, c :: rest)

/-- `leadingFraction`: consume the digits after the decimal point, returning
the raw digit value and the power-of-ten scale. -/
def leadingFraction (f scale : Nat) : List Char → Nat × Nat × List Char
  | [] => (f, scale, [])
  | c :: rest =>
    if c.isDigit then leadingFraction (f * 10 + (c.toNat - 48)) (scale * 10) rest
    else (f, scale, c :: rest)

/-- Consume the unit name: the run of characters up to the next digit or
decimal point. -/
def takeUnit : List Char → List Char × List Char
  | [] => ([], [])
  | c :: rest =>
    if c = '.' ∨ c.isDigit then ([], c :: rest)
    else
      let (u, r) := takeUnit rest
      (c :: u, r)

/-- `unitMap` of `time.ParseDuration`: nanoseconds per unit. -/
def unitMap : String → Option Nat
  | "ns" => some 1
  | "us" => some 1000
  | "µs" => some 1000
  | "μs" => some 1000
  | "ms" => some 1000000
  | "s" => some 1000000000
  | "m" => some 60000000000
  | "h" => some 3600000000000
  | _ => none

/-- The main loop of `time.ParseDuration`: repeatedly parse
`[0-9]*(\.[0-9]*)?unit` and accumulate. Each iteration consumes at least one
character, so `fuel` larger than the remaining length never runs out. -/
def parseLoop (fuel : Nat) (d : Nat) (s : List Char) : Option Nat :=
  match fuel with
  | 0 => none
  | fuel + 1 =>
    match s with
    | [] => some d
    | c :: _ =>
      if ¬(c = '.' ∨ c.isDigit) then none
      else
        let (v, s1) := leadingInt 0 s
        let pre : Bool := s1.length != s.length
        let (f, scale, s2, post) :=
          match s1 with
          | '.' :: s1x =>
            let (fv, sc, s2) := leadingFraction 0 1 s1x
            (fv, sc, s2, (s2.length != s1x.length : Bool))
          | _ => (0, 1, s1, false)
        if !pre && !post then none
        else
          let (u, s3) := takeUnit s2
          if u.isEmpty then none
          else
            match unitMap (String.mk u) with
            | none => none
            | some unit => parseLoop fuel (d + (v * unit + f * unit / scale)) s3

/-- `time.ParseDuration`, in nanoseconds: optional sign, the special case
`"0"`, then the unit loop; `none` is the error case. -/
def parseDuration (s : String) : Option Int :=
  let signRest : Bool × List Char :=
    match s.data with
    | c :: cs =>
      if c = '-' then (true, cs)
      else if c = '+' then (false, cs)
      else (false, s.data)
    | [] => (false, [])
  let neg := signRest.1
  let rest := signRest.2
  if rest = ['0'] then some 0
  else if rest = [] then none
  else (parseLoop (rest.length + 1) 0 rest).map
    (fun d => if neg then -(d : Int) else (d : Int))

/-! ### `InterfaceMapWithTtl.TTL` (discovery.go) -/

/-- Go map lookup for `interface{}`-valued maps. -/
def lookupV (m : List (String × Value)) (k : String) : Option Value :=
  (m.find? (fun p => p.1 = k)).map (fun p => p.2)

/-- The possible outcomes of `InterfaceMapWithTtl.TTL()`: a parsed duration,
a Go error (`ErrNotFound` or a `ParseDuration` failure), or a runtime panic
from the unchecked type assertion `val.(string)`. -/
inductive TTLOutcome where
  | ok : Int → TTLOutcome
  | err : String → TTLOutcome
  | panics : TTLOutcome
deriving DecidableEq

/-- `InterfaceMapWithTtl.TTL` of discovery.go: if the key `"ttl"` is
present, type-assert its value to `string` (panicking when it is not one)
and run `time.ParseDuration` on it; otherwise return `ErrNotFound`. -/
def InterfaceMapWithTtl.TTL (m : List (String × Value)) : TTLOutcome :=
  match lookupV m "ttl" with
  | some (.str s) =>
    match parseDuration s with
    | some d => .ok d
    | none => .err "time: invalid duration"
  | some _ => .panics
  | none => .err "TTL value not found"

/-! ### The binder engine, modelled from the specification

`pkg/databind/internal` (the `cachedEntry`, `gatherer`, `discoverer` and
`Sources` types, `Fetch`, and the template `Replace`) is not among the given
sources — only its tests are — so the following definitions are modelled
from spec sections 4.1–4.5 and 7. -/

/-- Modelled from the spec: `cachedEntry` of the missing binder internals
(spec section 4.1 and the data model); `ttl` and `cachedAt` in nanoseconds,
`value` unset before the first successful fetch. -/
structure CachedEntry (α : Type) where
  ttl : Int
  cachedAt : Option Int := none
  value : Option α := none

/-- Modelled from the spec: `IsExpired(now)` is true if `cachedAt` is unset,
or `now - cachedAt > ttl`. -/
def CachedEntry.IsExpired (e : CachedEntry α) (now : Int) : Bool :=
  match e.cachedAt with
  | none => true
  | some t => now - t > e.ttl

/-- Modelled from the spec: `Update(value, now)` sets `value` and
`cachedAt = now`, and replaces `ttl` by the self-declared override when one
is supplied (`ttlOverride` is computed by the caller from the fetched
value). -/
def CachedEntry.Update (e : CachedEntry α) (v : α) (ttlOverride : Option Int)
    (now : Int) : CachedEntry α :=
  { ttl := ttlOverride.getD e.ttl, cachedAt := some now, value := some v }

/-- Modelled from the spec: the self-declared-TTL capability check of spec
section 9 — attempt to view the fetched value as a TTL-provider variant
(only `InterfaceMapWithTtl` implements `ValuesWithTtl`); when the shape
matches and the `ttl` field parses, use it, else fall through with no
override. -/
def valueTtl : Value → Option Int
  | .imapTtl kvs =>
    match InterfaceMapWithTtl.TTL kvs with
    | .ok d => some d
    | _ => none
  | _ => none

/-- The observable outcome of one `FetchIfExpired(now)` call: the returned
value or error, the cache afterwards, and whether the underlying fetch
function was invoked. -/
structure FetchStep (α : Type) where
  result : Except String α
  cache : CachedEntry α
  invoked : Bool

/-- Modelled from the spec: `FetchIfExpired(now)` of spec section 4.2.
`fetchResult` stands for what the underlying fetch function would return if
invoked this cycle. When the cache is fresh the cached value is returned
without invocation (by the spec invariant, `cachedAt` set implies `value`
set; the `none` fallback is unreachable from states produced by `Update`).
When expired, a fetch error leaves the cache untouched; success updates it. -/
def FetchIfExpired (fetchResult : Except String α) (ttlOf : α → Option Int)
    (cache : CachedEntry α) (now : Int) : FetchStep α :=
  if cache.IsExpired now then
    match fetchResult with
    | .error e => ⟨.error e, cache, true⟩
    | .ok v => ⟨.ok v, cache.Update v (ttlOf v) now, true⟩
  else
    match cache.value with
    | some v => ⟨.ok v, cache, false⟩
    | none => ⟨.error "unfetched cache entry", cache, false⟩

/-- Modelled from the spec: one `Discovery` record — the variables,
annotations and rewrite rules of one observed entity. -/
structure Discovery where
  vars : List (String × Value)
  annotations : Map
  entityRewrites : List EntityRewrite

/-- Modelled from the spec: a `gatherer` — a named single-value source; its
underlying fetch function is embedded as the `Except` value it would return
this cycle. -/
structure Gatherer where
  fetchResult : Except String Value
  cache : CachedEntry Value

/-- Modelled from the spec: the `discoverer` — yields zero-or-more
`Discovery` records, cached over the whole list. Self-declared TTL on a
discovery list is not exercised by any claim and is modelled as absent. -/
structure Discoverer where
  fetchResult : Except String (List Discovery)
  cache : CachedEntry (List Discovery)

/-- Modelled from the spec: `Sources` — one optional discoverer plus named
gatherers (the injected clock becomes the `now` argument of `Fetch`). -/
structure Sources where
  discoverer : Option Discoverer
  vars : List (String × Gatherer)

/-- Modelled from the spec: a `Match` — the flattened namespace for one
Discovery merged with the shared gatherer data, plus the copied-through
annotations and rewrite rules. -/
structure Match where
  vars : Map
  annotations : Map
  entityRewrites : List EntityRewrite

/-- `FetchIfExpired` instantiated for a gatherer, with the self-declared-TTL
capability check on its fetched value. -/
def Gatherer.FetchIfExpired (g : Gatherer) (now : Int) : FetchStep Value :=
  Databind.FetchIfExpired g.fetchResult valueTtl g.cache now

/-- `FetchIfExpired` instantiated for the discoverer. -/
def Discoverer.FetchIfExpired (d : Discoverer) (now : Int) :
    FetchStep (List Discovery) :=
  Databind.FetchIfExpired d.fetchResult (fun _ => none) d.cache now

/-- Modelled from the spec: step 2 of `Sources.Fetch` — fetch every gatherer
in sequence, aborting on the first error (fail fast); caches updated before
the failure keep their fresh values, the failing and the unreached ones are
untouched. Returns the per-name fetched values and the updated gatherers. -/
def fetchGatherers (now : Int) :
    List (String × Gatherer) →
      Except String (List (String × Value)) × List (String × Gatherer)
  | [] => (.ok [], [])
  | (n, g) :: rest =>
    let step := g.FetchIfExpired now
    match step.result with
    | .error e => (.error e, (n, g) :: rest)
    | .ok v =>
      let (r, rest2) := fetchGatherers now rest
      (r.map (fun vs => (n, v) :: vs),
       (n, { g with cache := step.cache }) :: rest2)

/-- Modelled from the spec: step 3 of `Sources.Fetch` — flatten each
gatherer's value into the shared namespace under the gatherer's name as
prefix. -/
def flattenGatherers (vs : List (String × Value)) : Map :=
  vs.foldl (fun acc nv => AddValues acc nv.1 nv.2) []

/-- Modelled from the spec: step 4 of `Sources.Fetch` — the per-Match
namespace is the shared gatherer namespace extended with the flattened
discovery variables under their own bare paths, discovery entries winning
on collision. -/
def discoveryMatch (shared : Map) (d : Discovery) : Match :=
  { vars := d.vars.foldl (fun acc kv => AddValues acc kv.1 kv.2) shared
    annotations := d.annotations
    entityRewrites := d.entityRewrites }

/-- Modelled from the spec: the single empty Discovery synthesized when no
discoverer is configured. -/
def emptyDiscovery : Discovery := ⟨[], [], []⟩

/-- Modelled from the spec: `Sources.Fetch` (spec section 4.3) for one cycle
at time `now`: resolve the discoverer (or synthesize one empty Discovery),
then every gatherer, failing fast on any fetch error; on success produce one
Match per Discovery. The pair also carries the post-cycle cache state, which
in Go is mutated in place and therefore survives a failed cycle. -/
def Sources.Fetch (s : Sources) (now : Int) :
    Except String (List Match) × Sources :=
  match s.discoverer with
  | none =>
    let (r, gs) := fetchGatherers now s.vars
    (r.map (fun vs => [discoveryMatch (flattenGatherers vs) emptyDiscovery]),
     { s with vars := gs })
  | some d =>
    let step := d.FetchIfExpired now
    match step.result with
    | .error e => (.error e, s)
    | .ok ds =>
      let (r, gs) := fetchGatherers now s.vars
      (r.map (fun vs => ds.map (discoveryMatch (flattenGatherers vs))),
       { discoverer := some { d with cache := step.cache }, vars := gs })

/-! ### TemplateResolver, modelled from the specification (section 4.5) -/

/-- Left brace, written by code point to keep string literals brace-free. -/
def lbrace : Char := Char.ofNat 123

/-- Right brace, written by code point. -/
def rbrace : Char := Char.ofNat 125

/-- Split a character list at the first closing brace: returns the part
before it and the part after it, or `none` when no closing brace occurs. -/
def findClose : List Char → Option (List Char × List Char)
  | [] => none
  | c :: rest =>
    if c = rbrace then some ([], rest)
    else
      match findClose rest with
      | some (pre, post) => some (c :: pre, post)
      | none => none

/-- One lexical token of a template string: a literal character or a
placeholder path. -/
inductive Tok where
  | lit : Char → Tok
  | ph : String → Tok

/-- Modelled from the spec: the placeholder scanner of the missing template
resolver — a dollar sign followed by a braced path forms a placeholder
token; everything else (including an unterminated opening) is literal text.
Every step consumes at least one character, so the structural `fuel` never
runs out when started at the input's length. -/
def scanTokensF : Nat → List Char → List Tok
  | _, [] => []
  | 0, s => s.map .lit
  | fuel + 1, '$' :: c2 :: rest =>
    if c2 = lbrace then
      match findClose rest with
      | some (path, after) => .ph (String.mk path) :: scanTokensF fuel after
      | none => .lit '$' :: .lit c2 :: scanTokensF fuel rest
    else
      .lit '$' :: scanTokensF fuel (c2 :: rest)
  | fuel + 1, c :: rest => .lit c :: scanTokensF fuel rest

/-- The scanner at its input's length of fuel. -/
def scanTokens (s : List Char) : List Tok := scanTokensF s.length s

/-- Modelled from the spec: render a token list against a namespace — each
placeholder path is looked up verbatim, and an absent path is an
unrecoverable error for the whole call. -/
def renderTokens (ns : Map) : List Tok → Except String (List Char)
  | [] => .ok []
  | .lit c :: rest => (renderTokens ns rest).map (fun t => c :: t)
  | .ph p :: rest =>
    match mapLookup ns p with
    | some v => (renderTokens ns rest).map (fun t => v.data ++ t)
    | none => .error ("placeholder " ++ p ++ " not found")

/-- Modelled from the spec: substitute every placeholder of one string
leaf, failing when any referenced path is absent. -/
def substPlaceholders (ns : Map) (s : String) : Except String String :=
  (renderTokens ns (scanTokens s.data)).map String.mk

/-- The placeholder paths of a token list, in scan order. -/
def tokenPaths (toks : List Tok) : List String :=
  toks.filterMap (fun t =>
    match t with
    | .ph p => some p
    | .lit _ => none)

/-- The placeholder paths occurring in one string, in scan order. -/
def placeholderPaths (s : String) : List String :=
  tokenPaths (scanTokens s.data)

/-- Modelled from the spec: an arbitrary structured configuration template —
string leaves, string-keyed nodes, and sequences. -/
inductive Template where
  | str : String → Template
  | node : List (String × Template) → Template
  | seq : List Template → Template

mutual

/-- Modelled from the spec: the template walk of `Replace` for one Match's
namespace — substitute in every string leaf, recurse through nodes and
sequences, and fail the whole call on the first unresolved placeholder. -/
def replaceTemplate (ns : Map) : Template → Except String Template
  | .str s => (substPlaceholders ns s).map .str
  | .node fields => (replaceNode ns fields).map .node
  | .seq items => (replaceSeq ns items).map .seq

/-- The node case of `replaceTemplate`. -/
def replaceNode (ns : Map) :
    List (String × Template) → Except String (List (String × Template))
  | [] => .ok []
  | (k, t) :: rest =>
    match replaceTemplate ns t with
    | .error e => .error e
    | .ok t2 =>
      match replaceNode ns rest with
      | .error e => .error e
      | .ok rest2 => .ok ((k, t2) :: rest2)

/-- The sequence case of `replaceTemplate`. -/
def replaceSeq (ns : Map) : List Template → Except String (List Template)
  | [] => .ok []
  | t :: rest =>
    match replaceTemplate ns t with
    | .error e => .error e
    | .ok t2 =>
      match replaceSeq ns rest with
      | .error e => .error e
      | .ok rest2 => .ok (t2 :: rest2)

end

mutual

/-- All placeholder paths referenced anywhere in a template, in walk
order. -/
def templatePaths : Template → List String
  | .str s => placeholderPaths s
  | .node fields => nodePaths fields
  | .seq items => seqPaths items

/-- The node case of `templatePaths`. -/
def nodePaths : List (String × Template) → List String
  | [] => []
  | (_, t) :: rest => templatePaths t ++ nodePaths rest

/-- The sequence case of `templatePaths`. -/
def seqPaths : List Template → List String
  | [] => []
  | t :: rest => templatePaths t ++ seqPaths rest

end

/-- Modelled from the spec: one `Transformed` output unit — the resolved
template instance plus the Match's annotations and rewrite rules copied
through unchanged. -/
structure Transformed where
  vars : Template
  metricAnnotations : Map
  entityRewrites : List EntityRewrite

/-- Modelled from the spec: `Replace(template, matches)` — one `Transformed`
per Match, computed independently against that Match's namespace; any
unresolved placeholder fails the whole call with no partial output. -/
def Replace (ms : List Match) (tmpl : Template) :
    Except String (List Transformed) :=
  match ms with
  | [] => .ok []
  | m :: rest =>
    match replaceTemplate m.vars tmpl with
    | .error e => .error e
    | .ok t =>
      match Replace rest tmpl with
      | .error e => .error e
      | .ok ts => .ok (⟨t, m.annotations, m.entityRewrites⟩ :: ts)

end Databind

namespace Metrics

/-! ### `MemoryMonitor.Sample` (the memory sampler source file)

`swapMemory` itself is platform code outside the given sources; `Sample` is
therefore embedded as a function of the outcomes of its two collaborators
`vmHarvest` and `swapMemory`. Go `float64` fields are embedded as `ℚ`
(the claims touch only error routing, not rounding), and the `recover`
wrapper is not modelled because the embedding has no panics. -/

/-- Go errors as seen by `Sample`: the `errNoSwapDevicesFound` sentinel
(compared via `errors.Is`; the swap harvesters return it unwrapped) or any
other error. -/
inductive GoError where
  | noSwapDevicesFound
  | other : String → GoError
deriving DecidableEq

/-- `gopsutil` `mem.VirtualMemoryStat`, restricted to the fields `Sample`
reads. -/
structure VirtualMemoryStat where
  Total : Nat
  Available : Nat
  Used : Nat
  Cached : Nat
  Slab : Nat
  Shared : Nat

/-- `SwapSample` of the memory sampler. -/
structure SwapSample where
  SwapTotal : ℚ
  SwapFree : ℚ
  SwapUsed : ℚ
  SwapIn : Option ℚ
  SwapOut : Option ℚ

/-- `MemorySample` of the memory sampler; the embedded `*SwapSample`
pointer becomes an `Option`. -/
structure MemorySample where
  MemoryTotal : ℚ
  MemoryFree : ℚ
  MemoryUsed : ℚ
  MemoryFreePercent : ℚ
  MemoryUsedPercent : ℚ
  MemoryCachedBytes : ℚ
  MemorySlabBytes : ℚ
  MemorySharedBytes : ℚ
  swap : Option SwapSample

/-- The `MemorySample` literal `Sample` returns: percentages are zero when
`memory.Total` is zero, else `free = Available/Total*100` and
`used = 100 - free`. -/
def memorySampleOf (memory : VirtualMemoryStat) (swap : Option SwapSample) :
    MemorySample :=
  let memoryFreePercent : ℚ :=
    if memory.Total > 0 then (memory.Available : ℚ) / (memory.Total : ℚ) * 100
    else 0
  let memoryUsedPercent : ℚ :=
    if memory.Total > 0 then 100 - memoryFreePercent else 0
  { MemoryTotal := memory.Total
    MemoryFree := memory.Available
    MemoryUsed := memory.Used
    MemoryFreePercent := memoryFreePercent
    MemoryUsedPercent := memoryUsedPercent
    MemoryCachedBytes := memory.Cached
    MemorySlabBytes := memory.Slab
    MemorySharedBytes := memory.Shared
    swap := swap }

/-- `MemoryMonitor.Sample`: harvest virtual memory (an error there is
returned as-is), then swap; a swap error satisfying
`errors.Is(err, errNoSwapDevicesFound)` is soft — logged, sampling
continues with no swap data — while any other swap error aborts with that
error. The second component is the log output. -/
def MemoryMonitor.Sample (vmHarvest : Except GoError VirtualMemoryStat)
    (swapMemory : Except GoError SwapSample) :
    Except GoError MemorySample × List String :=
  match vmHarvest with
  | .error e => (.error e, [])
  | .ok memory =>
    match swapMemory with
    | .ok swap => (.ok (memorySampleOf memory (some swap)), [])
    | .error e =>
      if e = .noSwapDevicesFound then
        (.ok (memorySampleOf memory none), ["can't get swap sampler metrics"])
      else
        (.error e, [])

end Metrics

namespace Databind

/-! ### Spec-side comparison definitions

These definitions follow the specification's (or a claim's) own words, for
comparison against the source-derived definitions above. -/

/-- Whether an `Except` result is an error. -/
def isError {α : Type} : Except String α → Bool
  | .error _ => true
  | .ok _ => false

/-- EntityRewriter.Apply as the spec words it (spec section 4.6): for each
rule in list order, when the action is `replace` substitute and continue on
the result, otherwise skip the rule; written as explicit recursion for
comparison with the source's fold. -/
def applySpec (entityName : String) : List EntityRewrite → String
  | [] => entityName
  | er :: rest =>
    if er.action = "replace" then
      applySpec (goStringsReplace entityName er.needle er.replaceField) rest
    else
      applySpec entityName rest

/-- The claim's description of replacing an empty pattern: the replacement
inserted before every character of the name and once after the last
character. -/
def insertEverywhere (ins entityName : String) : String :=
  String.mk (ins.data ++ (entityName.data.map (fun c => c :: ins.data)).flatten)

/-- The claim's reading of a self-declared TTL (claim C2's wording): the
fetched value has a field literally named `ttl` holding a string parseable
as a duration — regardless of which Go map type carries it. -/
def literalTtlField : Value → Option Int
  | .strMap kvs =>
    match (kvs.find? (fun p => p.1 = "ttl")).map (fun p => p.2) with
    | some s => parseDuration s
    | none => none
  | .goMap kvs =>
    match lookupV kvs "ttl" with
    | some (.str s) => parseDuration s
    | _ => none
  | .imap kvs =>
    match lookupV kvs "ttl" with
    | some (.str s) => parseDuration s
    | _ => none
  | .imapTtl kvs =>
    match lookupV kvs "ttl" with
    | some (.str s) => parseDuration s
    | _ => none
  | _ => none

end Databind

/-! ## Claims -/

namespace Databind

/-- C3: Flattening the nested value `("prop" to ("arr" to the sequence
a, b, c))` with the empty prefix into an empty destination map yields exactly
the three entries `prop.arr[0] = a`, `prop.arr[1] = b`, `prop.arr[2] = c`:
mapping keys are joined with dots, no leading dot appears when the prefix is
empty, and sequence elements get an index suffix. -/
theorem C3_flatten_example :
    AddValues [] "" (.imap [("prop", .imap [("arr", .strList ["a", "b", "c"])])]) =
      [("prop.arr[0]", "a"), ("prop.arr[1]", "b"), ("prop.arr[2]", "c")] := by
  rfl

/-- C7: `EntityRewrites.Apply` processes the rules in list order over a
running name initialized to the input, agreeing everywhere with the spec's
recursion `applySpec` (replace-action rules substitute and later rules see
the result, any other action is a no-op); the substitution itself is
literal (a regex metacharacter only matches itself) and replaces all
occurrences. -/
theorem C7_apply_rules_in_order :
    (∀ (rules : List EntityRewrite) (entityName : String),
        EntityRewrites.Apply rules entityName = applySpec entityName rules) ∧
      goStringsReplace "abab" "a" "c" = "cbcb" ∧
      goStringsReplace "a.b" "." "x" = "axb" := by
  refine ⟨?_, by rfl, by rfl⟩
  intro rules
  induction rules with
  | nil =>
    intro entityName
    rfl
  | cons er rest ih =>
    intro entityName
    by_cases h : er.action = "replace"
    · simp only [EntityRewrites.Apply, List.foldl_cons, applySpec,
        EntityRewriteActionReplace, if_pos h]
      exact ih _
    · simp only [EntityRewrites.Apply, List.foldl_cons, applySpec,
        EntityRewriteActionReplace, if_neg h]
      exact ih _

/-- C9: for every payload whose `ttl` key is present but maps to a
non-string value, `InterfaceMapWithTtl.TTL()` hits the unchecked type
assertion and panics rather than returning an error. -/
theorem C9_ttl_type_assertion_panics (m : List (String × Value)) (v : Value)
    (hlook : lookupV m "ttl" = some v) (hstr : ∀ s, v ≠ Value.str s) :
    InterfaceMapWithTtl.TTL m = TTLOutcome.panics := by
  unfold InterfaceMapWithTtl.TTL
  rw [hlook]
  cases v
  case str s => exact absurd rfl (hstr s)
  all_goals rfl

/-- C9 witness: the payload mapping `ttl` to the number 3 panics. -/
theorem C9_ttl_type_assertion_panics_witness :
    InterfaceMapWithTtl.TTL [("ttl", Value.int 3)] = TTLOutcome.panics :=
  C9_ttl_type_assertion_panics [("ttl", Value.int 3)] (Value.int 3) rfl
    (fun _ h => Value.noConfusion h)

/-- C10 counterexample: a replace rule with empty match and empty
replacement leaves the name "a" unchanged, refuting the claim's assertion
that an empty-match replace rule never leaves the name unchanged. -/
theorem C10_empty_needle_empty_replacement_keeps_name :
    EntityRewrites.Apply
        [{ action := EntityRewriteActionReplace, needle := "", replaceField := "" }]
        "a" = "a" := by
  rfl

/-- helper: `replEmpty` written as a flatten of per-character insertions. -/
theorem replEmpty_eq_flatten (ins s : List Char) :
    replEmpty ins s = ins ++ (s.map (fun c => c :: ins)).flatten := by
  induction s with
  | nil => simp [replEmpty]
  | cons c rest ih => simp [replEmpty, ih]

/-- helper: the length of `replEmpty`. -/
theorem replEmpty_length (ins s : List Char) :
    (replEmpty ins s).length = ins.length + s.length * (ins.length + 1) := by
  induction s with
  | nil => simp [replEmpty]
  | cons c rest ih =>
    simp only [replEmpty, List.length_append, List.length_cons, ih]
    ring

/-- C10 (amended): a replace rule with empty match inserts replaceField
before every character of the running name and once after the last
character; this changes the name exactly when replaceField is non-empty,
while an empty replaceField leaves the name unchanged. -/
theorem C10_empty_needle_inserts_everywhere (entityName new : String) :
    (new ≠ "" →
      EntityRewrites.Apply
          [{ action := EntityRewriteActionReplace, needle := "", replaceField := new }]
          entityName = insertEverywhere new entityName ∧
        EntityRewrites.Apply
            [{ action := EntityRewriteActionReplace, needle := "", replaceField := new }]
            entityName ≠ entityName) ∧
      EntityRewrites.Apply
          [{ action := EntityRewriteActionReplace, needle := "", replaceField := "" }]
          entityName = entityName := by
  constructor
  · intro hnew
    have h1 : ¬(("" : String) = new) := fun h => hnew h.symm
    have happ : EntityRewrites.Apply
        [{ action := EntityRewriteActionReplace, needle := "", replaceField := new }]
        entityName = String.mk (replEmpty new.data entityName.data) := by
      simp only [EntityRewrites.Apply, List.foldl_cons, List.foldl_nil, if_true]
      unfold goStringsReplace
      rw [if_neg h1]
    have hne : new.data ≠ [] := by
      intro h
      apply hnew
      cases new with
      | mk data =>
        have h2 : data = [] := h
        subst h2
        rfl
    constructor
    · rw [happ]
      unfold insertEverywhere
      exact congrArg String.mk (replEmpty_eq_flatten new.data entityName.data)
    · rw [happ]
      intro heq
      have hdata : replEmpty new.data entityName.data = entityName.data :=
        congrArg String.data heq
      have hlen := congrArg List.length hdata
      rw [replEmpty_length] at hlen
      have hexp : entityName.data.length * (new.data.length + 1) =
          entityName.data.length * new.data.length + entityName.data.length := by ring
      rw [hexp] at hlen
      have hpos : 0 < new.data.length := List.length_pos.mpr hne
      omega
  · simp only [EntityRewrites.Apply, List.foldl_cons, List.foldl_nil, if_true]
    unfold goStringsReplace
    rw [if_pos rfl]

/-- C10 witness: the empty-match rule with replacement X maps "ab" to
"XaXbX", which differs from "ab". -/
theorem C10_empty_needle_inserts_everywhere_witness :
    EntityRewrites.Apply
        [{ action := EntityRewriteActionReplace, needle := "", replaceField := "X" }]
        "ab" = insertEverywhere "X" "ab" ∧
      EntityRewrites.Apply
          [{ action := EntityRewriteActionReplace, needle := "", replaceField := "X" }]
          "ab" ≠ "ab" :=
  (C10_empty_needle_inserts_everywhere "ab" "X").1 (by decide)

end Databind

namespace Metrics

/-- C8: `MemoryMonitor.Sample` treats a swap-reading failure as soft exactly
when the error is the no-swap-devices sentinel: then it logs and still
returns a memory sample with no swap data and no error, while any other
swap-reading error makes Sample return no sample and that error. -/
theorem C8_swap_soft_error (vm : VirtualMemoryStat) (e : GoError)
    (he : e ≠ GoError.noSwapDevicesFound) :
    MemoryMonitor.Sample (.ok vm) (.error .noSwapDevicesFound) =
        (.ok (memorySampleOf vm none), ["can't get swap sampler metrics"]) ∧
      (memorySampleOf vm none).swap = none ∧
      MemoryMonitor.Sample (.ok vm) (.error e) = (.error e, []) := by
  refine ⟨rfl, rfl, ?_⟩
  simp only [MemoryMonitor.Sample, if_neg he]

/-- C8 witness at a concrete memory stat and a concrete hard error. -/
theorem C8_swap_soft_error_witness :
    MemoryMonitor.Sample (.ok ⟨4, 2, 2, 0, 0, 0⟩) (.error .noSwapDevicesFound) =
        (.ok (memorySampleOf ⟨4, 2, 2, 0, 0, 0⟩ none),
         ["can't get swap sampler metrics"]) ∧
      (memorySampleOf ⟨4, 2, 2, 0, 0, 0⟩ none).swap = none ∧
      MemoryMonitor.Sample (.ok ⟨4, 2, 2, 0, 0, 0⟩) (.error (.other "io failure")) =
        (.error (.other "io failure"), []) :=
  C8_swap_soft_error ⟨4, 2, 2, 0, 0, 0⟩ (.other "io failure") (by decide)

end Metrics

namespace Databind

/-- helper: fetching a list of fresh gatherers with succeeding fetch
functions succeeds, returns the values in order and updates every cache
(applying any self-declared TTL). -/
theorem fetchGatherers_fresh_ok (now T : Int) (gs : List (String × Value)) :
    fetchGatherers now (gs.map (fun nv => (nv.1, ⟨.ok nv.2, ⟨T, none, none⟩⟩))) =
      (.ok gs,
       gs.map (fun nv =>
         (nv.1, ⟨.ok nv.2, ⟨(valueTtl nv.2).getD T, some now, some nv.2⟩⟩))) := by
  induction gs with
  | nil => rfl
  | cons nv rest ih =>
    obtain ⟨n, v⟩ := nv
    simp only [List.map_cons, fetchGatherers, Gatherer.FetchIfExpired, FetchIfExpired,
      CachedEntry.IsExpired, CachedEntry.Update, ih]
    rfl

/-- helper: one fresh gatherer through a full Fetch. -/
theorem fetchSingleGatherer (n : String) (T now : Int) (v : Value) :
    Sources.Fetch ⟨none, [(n, ⟨.ok v, ⟨T, none, none⟩⟩)]⟩ now =
      (.ok [⟨AddValues [] n v, [], []⟩],
       ⟨none, [(n, ⟨.ok v, ⟨(valueTtl v).getD T, some now, some v⟩⟩)]⟩) := by
  have h := fetchGatherers_fresh_ok now T [(n, v)]
  simp only [List.map_cons, List.map_nil] at h
  simp only [Sources.Fetch, h]
  rfl

/-- helper: a value that is not an `InterfaceMapWithTtl` never declares a
TTL. -/
theorem valueTtl_none_of_not_imapTtl (v : Value) (h : ∀ kvs, v ≠ Value.imapTtl kvs) :
    valueTtl v = none := by
  cases v
  case imapTtl kvs => exact absurd rfl (h kvs)
  all_goals rfl

/-- C4: every Gatherer's fetched value is flattened into the shared
namespace under the Gatherer's name as prefix — for any list of fresh
gatherers a Fetch returns one Match whose namespace folds AddValues over the
named values — and concretely a gatherer named hour with value
`("value" to x)` contributes exactly the entry `hour.value = x`. -/
theorem C4_gatherer_namespace :
    (∀ (gs : List (String × Value)) (T now : Int),
        Sources.Fetch ⟨none, gs.map (fun nv => (nv.1, ⟨.ok nv.2, ⟨T, none, none⟩⟩))⟩ now =
          (.ok [⟨flattenGatherers gs, [], []⟩],
           ⟨none, gs.map (fun nv =>
             (nv.1, ⟨.ok nv.2, ⟨(valueTtl nv.2).getD T, some now, some nv.2⟩⟩))⟩)) ∧
      (Sources.Fetch
          ⟨none, [("hour", ⟨.ok (.strMap [("value", "x")]), ⟨3600000000000, none, none⟩⟩)]⟩
          0).1 = .ok [⟨[("hour.value", "x")], [], []⟩] := by
  constructor
  · intro gs T now
    simp only [Sources.Fetch, fetchGatherers_fresh_ok]
    rfl
  · rfl

/-- C2 counterexample: a plain `map[string]interface` value exposing the
field `ttl = 12s` (parseable, witnessed by literalTtlField) does not
override the configured 35s ttl — the cache keeps 35s after the fetch,
refuting the claim that any value exposing a parseable ttl field overrides
the effective ttl. -/
theorem C2_plain_map_ttl_not_overriding :
    literalTtlField (Value.goMap [("ttl", Value.str "12s")]) = some 12000000000 ∧
      (Gatherer.FetchIfExpired
          ⟨.ok (.goMap [("ttl", .str "12s")]), ⟨35000000000, none, none⟩⟩ 0).cache.ttl =
        35000000000 ∧
      (35000000000 : Int) ≠ 12000000000 := by
  refine ⟨rfl, rfl, by decide⟩

/-- C2 (amended): only a value carrying the TTL capability (an
`InterfaceMapWithTtl`) whose `ttl` field holds a parseable duration string
overrides the entry's effective ttl, which then persists as the new ttl
until a later valid override; any other value — including plain maps with a
parseable ttl field — or an absent field or a parse failure leaves the
previous ttl unchanged, and no error surfaces (the Fetch still succeeds). -/
theorem C2_capability_ttl_override (n : String) (T now : Int) (v : Value) :
    (∀ kvs s0 d, v = Value.imapTtl kvs → lookupV kvs "ttl" = some (.str s0) →
        parseDuration s0 = some d →
        Sources.Fetch ⟨none, [(n, ⟨.ok v, ⟨T, none, none⟩⟩)]⟩ now =
          (.ok [⟨AddValues [] n v, [], []⟩],
           ⟨none, [(n, ⟨.ok v, ⟨d, some now, some v⟩⟩)]⟩)) ∧
      ((∀ kvs, v ≠ Value.imapTtl kvs) →
        Sources.Fetch ⟨none, [(n, ⟨.ok v, ⟨T, none, none⟩⟩)]⟩ now =
          (.ok [⟨AddValues [] n v, [], []⟩],
           ⟨none, [(n, ⟨.ok v, ⟨T, some now, some v⟩⟩)]⟩)) ∧
      (∀ kvs, v = Value.imapTtl kvs → lookupV kvs "ttl" = none →
        Sources.Fetch ⟨none, [(n, ⟨.ok v, ⟨T, none, none⟩⟩)]⟩ now =
          (.ok [⟨AddValues [] n v, [], []⟩],
           ⟨none, [(n, ⟨.ok v, ⟨T, some now, some v⟩⟩)]⟩)) ∧
      (∀ kvs s0, v = Value.imapTtl kvs → lookupV kvs "ttl" = some (.str s0) →
        parseDuration s0 = none →
        Sources.Fetch ⟨none, [(n, ⟨.ok v, ⟨T, none, none⟩⟩)]⟩ now =
          (.ok [⟨AddValues [] n v, [], []⟩],
           ⟨none, [(n, ⟨.ok v, ⟨T, some now, some v⟩⟩)]⟩)) ∧
      (∀ (e : CachedEntry Value) (v2 : Value) (now2 : Int),
        (∀ kvs, v2 ≠ Value.imapTtl kvs) →
        (e.Update v2 (valueTtl v2) now2).ttl = e.ttl) := by
  refine ⟨?_, ?_, ?_, ?_, ?_⟩
  · intro kvs s0 d hv hlook hparse
    subst hv
    have httl : valueTtl (Value.imapTtl kvs) = some d := by
      simp only [valueTtl, InterfaceMapWithTtl.TTL, hlook, hparse]
    rw [fetchSingleGatherer, httl]
    rfl
  · intro hnot
    rw [fetchSingleGatherer, valueTtl_none_of_not_imapTtl v hnot]
    rfl
  · intro kvs hv hlook
    subst hv
    have httl : valueTtl (Value.imapTtl kvs) = none := by
      simp only [valueTtl, InterfaceMapWithTtl.TTL, hlook]
    rw [fetchSingleGatherer, httl]
    rfl
  · intro kvs s0 hv hlook hparse
    subst hv
    have httl : valueTtl (Value.imapTtl kvs) = none := by
      simp only [valueTtl, InterfaceMapWithTtl.TTL, hlook, hparse]
    rw [fetchSingleGatherer, httl]
    rfl
  · intro e v2 now2 hnot
    unfold CachedEntry.Update
    rw [valueTtl_none_of_not_imapTtl v2 hnot]
    rfl

/-- C2 witness: the TTL-capable payload declaring `ttl = 1432s` overrides a
configured 345s ttl through a full Fetch. -/
theorem C2_capability_ttl_override_witness :
    Sources.Fetch
        ⟨none, [("myData",
          ⟨.ok (.imapTtl [("data", .str "some_value"), ("ttl", .str "1432s")]),
           ⟨345000000000, none, none⟩⟩)]⟩ 0 =
      (.ok [⟨AddValues [] "myData"
          (.imapTtl [("data", .str "some_value"), ("ttl", .str "1432s")]), [], []⟩],
       ⟨none, [("myData",
         ⟨.ok (.imapTtl [("data", .str "some_value"), ("ttl", .str "1432s")]),
          ⟨1432000000000, some 0,
           some (.imapTtl [("data", .str "some_value"), ("ttl", .str "1432s")])⟩⟩)]⟩) :=
  (C2_capability_ttl_override "myData" 345000000000 0
      (.imapTtl [("data", .str "some_value"), ("ttl", .str "1432s")])).1
    [("data", .str "some_value"), ("ttl", .str "1432s")] "1432s" 1432000000000 rfl rfl rfl

/-- C1: for a source with effective ttl T whose last successful fetch was
at t0, a fetch at t1 invokes the underlying fetch function if and only if
t1 - t0 exceeds T; within the ttl the identical cached value is returned
with the cache untouched, and past the ttl a successful fetch returns the
fresh value and moves cachedAt to t1. -/
theorem C1_cache_gating (α : Type) (fr : Except String α) (ttlOf : α → Option Int)
    (T t0 t1 : Int) (v0 : α) :
    ((FetchIfExpired fr ttlOf ⟨T, some t0, some v0⟩ t1).invoked = true ↔ t1 - t0 > T) ∧
      (t1 - t0 ≤ T →
        FetchIfExpired fr ttlOf ⟨T, some t0, some v0⟩ t1 =
          ⟨.ok v0, ⟨T, some t0, some v0⟩, false⟩) ∧
      (t1 - t0 > T → ∀ v, fr = Except.ok v →
        (FetchIfExpired fr ttlOf ⟨T, some t0, some v0⟩ t1).result = .ok v ∧
        (FetchIfExpired fr ttlOf ⟨T, some t0, some v0⟩ t1).cache.cachedAt = some t1) := by
  have hexp : CachedEntry.IsExpired ⟨T, some t0, some v0⟩ t1 = decide (t1 - t0 > T) := rfl
  by_cases h : t1 - t0 > T
  · refine ⟨?_, fun hle => absurd h (not_lt.mpr hle), fun _ v hv => ?_⟩
    · cases fr <;> simp [FetchIfExpired, hexp, h]
    · subst hv
      simp [FetchIfExpired, hexp, h, CachedEntry.Update]
  · refine ⟨?_, fun _ => ?_, fun hgt => absurd hgt h⟩
    · simp [FetchIfExpired, hexp, h]
    · simp [FetchIfExpired, hexp, h]

/-- C1 witness: with a one-minute ttl cached at 0, a fetch at 65s (matching
the spec's scenario) refetches and moves cachedAt to 65s. -/
theorem C1_cache_gating_witness :
    (FetchIfExpired (Except.ok (Value.str "newValue")) valueTtl
        ⟨60000000000, some 0, some (Value.str "hello")⟩ 65000000000).result =
        .ok (.str "newValue") ∧
      (FetchIfExpired (Except.ok (Value.str "newValue")) valueTtl
          ⟨60000000000, some 0, some (Value.str "hello")⟩ 65000000000).cache.cachedAt =
        some 65000000000 :=
  (C1_cache_gating Value (Except.ok (Value.str "newValue")) valueTtl
      60000000000 0 65000000000 (Value.str "hello")).2.2 (by decide)
    (Value.str "newValue") rfl

end Databind

namespace Databind

/-- helper: rendering a token list errors whenever some referenced path is
missing from the namespace. -/
theorem renderTokens_err (ns : Map) (toks : List Tok) (p : String)
    (hp : p ∈ tokenPaths toks) (hm : mapLookup ns p = none) :
    isError (renderTokens ns toks) = true := by
  induction toks with
  | nil => simp [tokenPaths] at hp
  | cons t rest ih =>
    cases t with
    | lit c =>
      have hp' : p ∈ tokenPaths rest := by simpa [tokenPaths] using hp
      have h := ih hp'
      simp only [renderTokens]
      cases hr : renderTokens ns rest with
      | error e => rfl
      | ok l => rw [hr] at h; simp [isError] at h
    | ph q =>
      simp only [renderTokens]
      cases hl : mapLookup ns q with
      | none => rfl
      | some v =>
        have hp' : p ∈ tokenPaths rest := by
          have hq : tokenPaths (Tok.ph q :: rest) = q :: tokenPaths rest := by
            simp [tokenPaths]
          rw [hq] at hp
          rcases List.mem_cons.mp hp with heq | hin
          · subst heq
            rw [hl] at hm
            exact absurd hm (by simp)
          · exact hin
        have h := ih hp'
        cases hr : renderTokens ns rest with
        | error e => rfl
        | ok l => rw [hr] at h; simp [isError] at h

mutual

/-- helper: a missing path anywhere in a template fails replaceTemplate. -/
theorem replaceTemplate_err (ns : Map) (t : Template) (p : String)
    (hp : p ∈ templatePaths t) (hm : mapLookup ns p = none) :
    isError (replaceTemplate ns t) = true := by
  cases t with
  | str s =>
    have hp' : p ∈ tokenPaths (scanTokens s.data) := by
      simpa [templatePaths, placeholderPaths] using hp
    have h := renderTokens_err ns (scanTokens s.data) p hp' hm
    simp only [replaceTemplate, substPlaceholders]
    cases hr : renderTokens ns (scanTokens s.data) with
    | error e => rfl
    | ok l => rw [hr] at h; simp [isError] at h
  | node fields =>
    have hp' : p ∈ nodePaths fields := by simpa [templatePaths] using hp
    have h := replaceNode_err ns fields p hp' hm
    simp only [replaceTemplate]
    cases hr : replaceNode ns fields with
    | error e => rfl
    | ok l => rw [hr] at h; simp [isError] at h
  | seq items =>
    have hp' : p ∈ seqPaths items := by simpa [templatePaths] using hp
    have h := replaceSeq_err ns items p hp' hm
    simp only [replaceTemplate]
    cases hr : replaceSeq ns items with
    | error e => rfl
    | ok l => rw [hr] at h; simp [isError] at h

/-- helper: node case of replaceTemplate_err. -/
theorem replaceNode_err (ns : Map) (fields : List (String × Template)) (p : String)
    (hp : p ∈ nodePaths fields) (hm : mapLookup ns p = none) :
    isError (replaceNode ns fields) = true := by
  cases fields with
  | nil => simp [nodePaths] at hp
  | cons kt rest =>
    obtain ⟨k, t⟩ := kt
    simp only [nodePaths] at hp
    rw [List.mem_append] at hp
    simp only [replaceNode]
    rcases hp with hin | hin
    · have h := replaceTemplate_err ns t p hin hm
      cases hr : replaceTemplate ns t with
      | error e => rfl
      | ok t2 => rw [hr] at h; simp [isError] at h
    · cases hr : replaceTemplate ns t with
      | error e => rfl
      | ok t2 =>
        have h := replaceNode_err ns rest p hin hm
        cases hr2 : replaceNode ns rest with
        | error e => rfl
        | ok l => rw [hr2] at h; simp [isError] at h

/-- helper: sequence case of replaceTemplate_err. -/
theorem replaceSeq_err (ns : Map) (items : List Template) (p : String)
    (hp : p ∈ seqPaths items) (hm : mapLookup ns p = none) :
    isError (replaceSeq ns items) = true := by
  cases items with
  | nil => simp [seqPaths] at hp
  | cons t rest =>
    simp only [seqPaths] at hp
    rw [List.mem_append] at hp
    simp only [replaceSeq]
    rcases hp with hin | hin
    · have h := replaceTemplate_err ns t p hin hm
      cases hr : replaceTemplate ns t with
      | error e => rfl
      | ok t2 => rw [hr] at h; simp [isError] at h
    · cases hr : replaceTemplate ns t with
      | error e => rfl
      | ok t2 =>
        have h := replaceSeq_err ns rest p hin hm
        cases hr2 : replaceSeq ns rest with
        | error e => rfl
        | ok l => rw [hr2] at h; simp [isError] at h

end

/-- C5: if any string leaf of the template contains a placeholder whose
path is absent from a Match's flat namespace, the whole Replace call over
the matches containing it fails with an error and produces no result. -/
theorem C5_unresolved_placeholder_fails (ms : List Match) (m : Match)
    (tmpl : Template) (p : String) (hmem : m ∈ ms) (hp : p ∈ templatePaths tmpl)
    (hm : mapLookup m.vars p = none) :
    isError (Replace ms tmpl) = true := by
  induction ms with
  | nil => simp at hmem
  | cons m0 rest ih =>
    simp only [Replace]
    rcases List.mem_cons.mp hmem with heq | hin
    · subst heq
      have h := replaceTemplate_err m.vars tmpl p hp hm
      cases hr : replaceTemplate m.vars tmpl with
      | error e => rfl
      | ok t2 => rw [hr] at h; simp [isError] at h
    · cases hr : replaceTemplate m0.vars tmpl with
      | error e => rfl
      | ok t2 =>
        have h := ih hin
        cases hr2 : Replace rest tmpl with
        | error e => rfl
        | ok l => rw [hr2] at h; simp [isError] at h

/-- C5 witness: a template referencing missing.path against an empty
namespace fails. -/
theorem C5_unresolved_placeholder_fails_witness :
    isError (Replace [⟨[], [], []⟩] (.str "$\x7bmissing.path\x7d")) = true :=
  C5_unresolved_placeholder_fails [⟨[], [], []⟩] ⟨[], [], []⟩
    (.str "$\x7bmissing.path\x7d") "missing.path" (List.mem_singleton.mpr rfl)
    (by decide) rfl

/-- helper: an expired gatherer whose fetch function errors yields that
error from FetchIfExpired. -/
theorem gatherer_result_error (g : Gatherer) (now : Int) (e : String)
    (hexp : g.cache.IsExpired now = true) (herr : g.fetchResult = .error e) :
    (g.FetchIfExpired now).result = .error e := by
  simp [Gatherer.FetchIfExpired, FetchIfExpired, hexp, herr]

/-- helper: an expired erroring gatherer fails fetchGatherers and is left
untouched in the returned state. -/
theorem fetchGatherers_err_of_mem (now : Int) (gs : List (String × Gatherer))
    (n : String) (g : Gatherer) (e : String) (hmem : (n, g) ∈ gs)
    (hexp : g.cache.IsExpired now = true) (herr : g.fetchResult = .error e) :
    isError (fetchGatherers now gs).1 = true ∧ (n, g) ∈ (fetchGatherers now gs).2 := by
  induction gs with
  | nil => simp at hmem
  | cons ng rest ih =>
    obtain ⟨n0, g0⟩ := ng
    simp only [fetchGatherers]
    cases hs : (g0.FetchIfExpired now).result with
    | error e0 => exact ⟨rfl, hmem⟩
    | ok v =>
      rcases List.mem_cons.mp hmem with heq | hin
      · exfalso
        have hg : g0 = g := (Prod.mk.injEq n g n0 g0).mp heq |>.2.symm
        subst hg
        rw [gatherer_result_error g0 now e hexp herr] at hs
        exact Except.noConfusion hs
      · have h := ih hin
        rcases hfr : fetchGatherers now rest with ⟨r, rest2⟩
        rw [hfr] at h
        simp only at h
        cases r with
        | error e0 => exact ⟨rfl, List.mem_cons_of_mem _ h.2⟩
        | ok l =>
          exact absurd h.1 (by simp [isError])

/-- C6 counterexample: with an expired discoverer that fetches successfully
and an expired gatherer whose fetch errors, the cycle fails with the
gatherer's error and produces no Matches, yet the discoverer's cache has
already advanced (cachedAt moved from unset to the cycle time), refuting
the claim that every source's cache stays unchanged on a failed cycle. -/
theorem C6_discoverer_cache_advances_on_failed_cycle :
    (Sources.Fetch
        ⟨some ⟨.ok [emptyDiscovery], ⟨60000000000, none, none⟩⟩,
         [("g", ⟨.error "boom", ⟨60000000000, none, none⟩⟩)]⟩ 0).1 = .error "boom" ∧
      (Sources.Fetch
          ⟨some ⟨.ok [emptyDiscovery], ⟨60000000000, none, none⟩⟩,
           [("g", ⟨.error "boom", ⟨60000000000, none, none⟩⟩)]⟩ 0).2.discoverer =
        some ⟨.ok [emptyDiscovery], ⟨60000000000, some 0, some [emptyDiscovery]⟩⟩ ∧
      ((some 0 : Option Int) ≠ (none : Option Int)) := by
  refine ⟨rfl, rfl, by decide⟩

/-- C6 (amended): any invoked fetch error aborts the cycle — a discoverer
error leaves the whole Sources state unchanged and propagates the error; an
expired erroring gatherer makes the cycle fail with an error, produce no
Matches, and keeps that failing gatherer's cache untouched in the post
state; sources refetched successfully earlier in the same cycle keep their
fresh values (each cache always holds its last good value). -/
theorem C6_fetch_error_fatal (s : Sources) (now : Int) :
    (∀ d e, s.discoverer = some d → d.cache.IsExpired now = true →
        d.fetchResult = .error e → Sources.Fetch s now = (.error e, s)) ∧
      (∀ n g e, (n, g) ∈ s.vars → g.cache.IsExpired now = true →
        g.fetchResult = .error e →
        isError (Sources.Fetch s now).1 = true ∧
          (n, g) ∈ (Sources.Fetch s now).2.vars) := by
  constructor
  · intro d e hd hexp herr
    have hres : (d.FetchIfExpired now).result = .error e := by
      simp [Discoverer.FetchIfExpired, FetchIfExpired, hexp, herr]
    simp only [Sources.Fetch, hd, hres]
  · intro n g e hmem hexp herr
    have hg := fetchGatherers_err_of_mem now s.vars n g e hmem hexp herr
    cases hdisc : s.discoverer with
    | none =>
      simp only [Sources.Fetch, hdisc]
      rcases hfr : fetchGatherers now s.vars with ⟨r, rest2⟩
      rw [hfr] at hg
      simp only at hg
      cases r with
      | error e0 => exact ⟨rfl, hg.2⟩
      | ok l => exact absurd hg.1 (by simp [isError])
    | some d =>
      simp only [Sources.Fetch, hdisc]
      cases hs : (d.FetchIfExpired now).result with
      | error e0 => exact ⟨rfl, hmem⟩
      | ok ds =>
        rcases hfr : fetchGatherers now s.vars with ⟨r, rest2⟩
        rw [hfr] at hg
        simp only at hg
        cases r with
        | error e0 => exact ⟨rfl, hg.2⟩
        | ok l => exact absurd hg.1 (by simp [isError])

/-- C6 witness: the amended theorem at the counterexample's concrete
sources — the cycle errors and the failing gatherer is untouched. -/
theorem C6_fetch_error_fatal_witness :
    isError ((Sources.Fetch
        ⟨some ⟨.ok [emptyDiscovery], ⟨60000000000, none, none⟩⟩,
         [("g", ⟨.error "boom", ⟨60000000000, none, none⟩⟩)]⟩ 0).1) = true ∧
      ("g", (⟨.error "boom", ⟨60000000000, none, none⟩⟩ : Gatherer)) ∈
        (Sources.Fetch
          ⟨some ⟨.ok [emptyDiscovery], ⟨60000000000, none, none⟩⟩,
           [("g", ⟨.error "boom", ⟨60000000000, none, none⟩⟩)]⟩ 0).2.vars :=
  (C6_fetch_error_fatal
      ⟨some ⟨.ok [emptyDiscovery], ⟨60000000000, none, none⟩⟩,
       [("g", ⟨.error "boom", ⟨60000000000, none, none⟩⟩)]⟩ 0).2
    "g" ⟨.error "boom", ⟨60000000000, none, none⟩⟩ "boom"
    (List.mem_singleton.mpr rfl) rfl rfl

end Databind
